import Mathlib

/-!
Verification development for the dataspec definition-parsing / validation /
SQL-generation core.

The definitions below are a shallow embedding of the TypeScript sources
`src/core/validators/table-validator.ts` (classes `TableValidator` and
`SQLGenerator`), `src/core/parsers/table-parser.ts` (class `TableParser`)
and the Zod schema `src/core/schemas/table.schema.ts`.

Conventions of the embedding:
* JavaScript strings are modelled by `String` / `List Char`; the regular
  expressions of the source are compiled by hand into deterministic
  scanners over `List Char` that reproduce the leftmost-match /
  greedy-quantifier behaviour of the originals.
* Methods that can throw (`TableValidator.validate` via the
  `parts[1].length` access, `SQLGenerator.generateDDL/generateETL` on an
  unsupported dialect, `TableParser.parse` on a missing title) are modelled
  in `Except String`.
* `new Date().toISOString().split('T')[0]` is modelled by passing the
  current date into the generator functions as an explicit `currentDate`
  argument, so that dependence on the ambient clock becomes dependence on
  that argument.
-/

namespace Dataspec

/-! ## Character classes and small string utilities (JS semantics) -/

/-- Whitespace characters recognised by the JavaScript `\s` regex class
(the ASCII ones plus the Unicode space characters JS includes). -/
def wsChars : List Char :=
  [' ', '\t', '\n', '\r', Char.ofNat 0x0b, Char.ofNat 0x0c,
   Char.ofNat 0xa0, Char.ofNat 0x1680,
   Char.ofNat 0x2000, Char.ofNat 0x2001, Char.ofNat 0x2002, Char.ofNat 0x2003,
   Char.ofNat 0x2004, Char.ofNat 0x2005, Char.ofNat 0x2006, Char.ofNat 0x2007,
   Char.ofNat 0x2008, Char.ofNat 0x2009, Char.ofNat 0x200a,
   Char.ofNat 0x2028, Char.ofNat 0x2029, Char.ofNat 0x202f,
   Char.ofNat 0x205f, Char.ofNat 0x3000, Char.ofNat 0xfeff]

/-- JS `\s` as a Boolean predicate. -/
def jsWS (c : Char) : Bool := wsChars.contains c

/-- The character class `[a-z_]` used by the table-name regexes. -/
def isNameChar (c : Char) : Bool := ('a' ≤ c && c ≤ 'z') || c = '_'

/-- The character class `[a-z0-9_]` used by the field-name regex. -/
def isFieldChar (c : Char) : Bool :=
  ('a' ≤ c && c ≤ 'z') || ('0' ≤ c && c ≤ '9') || c = '_'

/-- JS `String.prototype.trim` on a character list: drop JS whitespace from
both ends. -/
def trimJS (l : List Char) : List Char :=
  ((l.dropWhile jsWS).reverse.dropWhile jsWS).reverse

/-- Substring test on character lists (JS `String.prototype.includes`). -/
def containsSub (l pat : List Char) : Bool :=
  match l with
  | [] => pat.isEmpty
  | _ :: rest => pat.isPrefixOf l || containsSub rest pat

/-- JS `includes` on strings. -/
def strContains (s pat : String) : Bool := containsSub s.data pat.data

/-- JS `value.replace(/pat/g, '')` for a literal pattern: one left-to-right
pass removing non-overlapping occurrences (the produced text is not
re-scanned). -/
def removeAllAux (p : Char) (ps : List Char) : Nat → List Char → List Char
  | 0, l => l
  | _ + 1, [] => []
  | fuel + 1, c :: rest =>
    if (p :: ps).isPrefixOf (c :: rest) then
      removeAllAux p ps fuel (rest.drop ps.length)
    else
      c :: removeAllAux p ps fuel rest

/-- JS `value.replace(/pat/g, '')` for a literal pattern (the fuel, one unit
per consumed character, never runs out). -/
def removeAllSub (pat : List Char) (l : List Char) : List Char :=
  match pat with
  | [] => l
  | p :: ps => removeAllAux p ps l.length l

/-- JS `String.prototype.toUpperCase` (agrees with it on ASCII, which is all
the type-token lookups compare). -/
def toUpperJS (s : String) : String := ⟨s.data.map Char.toUpper⟩

/-- JS `String.prototype.toLowerCase` (ASCII). -/
def toLowerJS (s : String) : String := ⟨s.data.map Char.toLower⟩

/-- JS `String.prototype.split` with a single separator character. -/
def splitOnChar (sep : Char) : List Char → List (List Char)
  | [] => [[]]
  | c :: rest =>
    let r := splitOnChar sep rest
    if c = sep then [] :: r
    else
      match r with
      | [] => [[c]]
      | h :: t => (c :: h) :: t

/-- JS `String.prototype.split(/[...]/)` with a class of separator
characters. -/
def splitOnAny (seps : List Char) : List Char → List (List Char)
  | [] => [[]]
  | c :: rest =>
    let r := splitOnAny seps rest
    if seps.contains c then [] :: r
    else
      match r with
      | [] => [[c]]
      | h :: t => (c :: h) :: t

/-- Deduplicate keeping first occurrences, in order — the observable
behaviour of `[...new Set(xs)]` in JS. -/
def dedupFirstFuel : Nat → List String → List String
  | 0, l => l
  | _ + 1, [] => []
  | fuel + 1, a :: rest => a :: dedupFirstFuel fuel (rest.filter (· ≠ a))

/-- Deduplicate keeping first occurrences (fuel never runs out: the list
shrinks by at least one element per step). -/
def dedupFirst (l : List String) : List String := dedupFirstFuel l.length l

/-! ## Data model (`table.schema.ts`) -/

/-- `updateFrequency`: one of the four literals of the TS union type. -/
inductive UpdateFrequency where
  | realtime | hourly | daily | weekly
  deriving DecidableEq, Repr

/-- Metadata attached by the parser (`TableMetadataSchema`). -/
structure TableMetadata where
  format : String
  version : String
  deriving DecidableEq, Repr

/-- One column (`FieldDefinitionSchema`). -/
structure FieldDefinition where
  name : String
  type : String
  description : String
  nullable : Bool
  defaultValue : Option String := none
  exampleValue : Option String := none
  constraints : Option (List String) := none
  deriving DecidableEq, Repr

/-- One warehouse table's declared shape (`TableDefinitionSchema`). -/
structure TableDefinition where
  metadata : TableMetadata
  name : String
  displayName : String
  description : String
  owner : String
  updateFrequency : UpdateFrequency
  fields : List FieldDefinition
  partitionKeys : Option (List String) := none
  indexes : Option (List String) := none
  dataSources : List String
  consumers : Option (List String) := none
  qualityRules : Option (List String) := none
  createdAt : Option String := none
  updatedAt : Option String := none
  deriving DecidableEq, Repr

inductive Severity where
  | error | warning
  deriving DecidableEq, Repr

/-- One validation finding (`ValidationError` in the source). -/
structure ValidationError where
  type : String
  message : String
  path : Option String
  severity : Severity
  deriving DecidableEq, Repr

/-- `ValidationResult` of the source. -/
structure ValidationResult where
  valid : Bool
  errors : List ValidationError
  warnings : List ValidationError
  deriving DecidableEq, Repr

/-- The `^[a-z_]+\.[a-z_]+$` regex (table names): a nonempty `[a-z_]` run,
a dot, a nonempty `[a-z_]` run, end of string. -/
def matchesTableName (s : String) : Bool :=
  let l := s.data
  let p := l.takeWhile isNameChar
  let r := l.dropWhile isNameChar
  (!p.isEmpty) &&
    match r with
    | '.' :: q => (!q.isEmpty) && q.all isNameChar
    | _ => false

/-- The `^[a-z_][a-z0-9_]*$` regex (field names). -/
def matchesFieldName (s : String) : Bool :=
  match s.data with
  | [] => false
  | c :: rest => isNameChar c && rest.all isFieldChar

/-- The placeholder sentinel `[请填写]`. -/
def placeholder : String := "[请填写]"

/-! ## `TableValidator` (`table-validator.ts`, lines 20–165)

The Zod pass `TableDefinitionSchema.safeParse` is modelled by evaluating the
checks declared in `table.schema.ts` on the record (the record is well-shaped
by construction here, so only the value-level checks — regexes, minimum
lengths, the `metadata.format` literal — can produce issues). -/

namespace TableValidator

/-- One Zod issue: fire condition, message, dotted path. -/
def schemaChecks (t : TableDefinition) : List (Bool × String × String) :=
  [((t.metadata.format ≠ "dataspec-table" : Bool),
    "Invalid literal value, expected \"dataspec-table\"", "metadata.format"),
   ((!matchesTableName t.name), "表名必须符合 database.table_name 格式", "name"),
   ((t.displayName.length < 1 : Bool), "String must contain at least 1 character(s)", "displayName"),
   ((t.description.length < 10 : Bool), "表描述至少需要 10 个字符", "description"),
   ((t.owner.length < 1 : Bool), "String must contain at least 1 character(s)", "owner"),
   ((t.fields.length < 1 : Bool), "表必须至少有一个字段", "fields")]
  ++ (t.fields.enum.flatMap fun p =>
      [((p.2.name.length < 1 : Bool), "String must contain at least 1 character(s)",
        "fields." ++ toString p.1 ++ ".name"),
       ((!matchesFieldName p.2.name),
        "字段名只能包含小写字母、数字和下划线，且必须以字母或下划线开头",
        "fields." ++ toString p.1 ++ ".name"),
       ((p.2.type.length < 1 : Bool), "String must contain at least 1 character(s)",
        "fields." ++ toString p.1 ++ ".type"),
       ((p.2.description.length < 1 : Bool), "String must contain at least 1 character(s)",
        "fields." ++ toString p.1 ++ ".description")])
  ++ [((t.dataSources.length < 1 : Bool), "必须指定至少一个数据来源", "dataSources")]

/-- The `SCHEMA_ERROR` findings pushed from `parseResult.error.errors`
(validate, step 1). -/
def zodFindings (t : TableDefinition) : List ValidationError :=
  (schemaChecks t).filterMap fun c =>
    if c.1 then some ⟨"SCHEMA_ERROR", c.2.1, some c.2.2, .error⟩ else none

/-- `validateTableName` (lines 57–78).  The regex failure only pushes a
finding, but the subsequent `table.name.split('.')[1].length` access throws a
`TypeError` whenever the name contains no dot, which we model in `Except`. -/
def validateTableNameE (t : TableDefinition) : Except String (List ValidationError) :=
  match (splitOnChar '.' t.name.data)[1]? with
  | none => .error "TypeError: Cannot read properties of undefined (reading 'length')"
  | some p =>
    .ok ((if !matchesTableName t.name then
        [⟨"INVALID_TABLE_NAME", "表名必须符合 database.table_name 格式，只允许小写字母和下划线",
          some "name", .error⟩]
      else []) ++
      (if p.length > 50 then
        [⟨"TABLE_NAME_TOO_LONG", "表名长度不应超过 50 个字符", some "name", .warning⟩]
      else []))

/-- Per-field loop of `validateFields` (lines 99–120). -/
def perFieldFindings (fields : List FieldDefinition) : List ValidationError :=
  fields.enum.flatMap fun p =>
    (if !matchesFieldName p.2.name then
      [⟨"INVALID_FIELD_NAME",
        "字段名 \"" ++ p.2.name ++ "\" 格式错误，应为小写字母、数字、下划线",
        some ("fields[" ++ toString p.1 ++ "].name"), .error⟩]
    else [])
    ++ (if p.2.description.length < 2 then
      [⟨"INSUFFICIENT_FIELD_DESCRIPTION", "字段 \"" ++ p.2.name ++ "\" 描述过短",
        some ("fields[" ++ toString p.1 ++ "].description"), .warning⟩]
    else [])

/-- `fieldNames.filter((name, index) => fieldNames.indexOf(name) !== index)`
(line 86). -/
def duplicateNames (fieldNames : List String) : List String :=
  (fieldNames.enum.filter fun p => fieldNames.indexOf p.2 ≠ p.1).map (·.2)

/-- `validateFields` (lines 83–121): the duplicate-name check, deduplicated
through `new Set` and comma-joined, then the per-field loop. -/
def validateFields (t : TableDefinition) : List ValidationError :=
  (if duplicateNames (t.fields.map (·.name)) ≠ [] then
    [⟨"DUPLICATE_FIELD_NAMES",
      "字段名重复: "
        ++ String.intercalate ", " (dedupFirst (duplicateNames (t.fields.map (·.name)))),
      some "fields", .error⟩]
  else [])
  ++ perFieldFindings t.fields

/-- `validateOwner` (lines 126–135): `!table.owner ||
table.owner.includes('[请填写]')`. -/
def validateOwner (t : TableDefinition) : List ValidationError :=
  if t.owner = "" || strContains t.owner placeholder then
    [⟨"NO_OWNER", "必须指定表负责人", some "owner", .error⟩]
  else []

/-- `validateDescription` (lines 140–149). -/
def validateDescription (t : TableDefinition) : List ValidationError :=
  if t.description = "" || t.description.length < 10 then
    [⟨"INSUFFICIENT_DESCRIPTION", "表描述至少需要 10 个字符", some "description", .warning⟩]
  else []

/-- `validateDataSources` (lines 154–164): fires when the list is empty or
`some` entry contains the placeholder or equals `未指定`. -/
def validateDataSources (t : TableDefinition) : List ValidationError :=
  if t.dataSources.isEmpty
      || t.dataSources.any (fun s => strContains s placeholder || s = "未指定") then
    [⟨"NO_DATA_SOURCES", "必须指定至少一个有效的数据来源", some "dataSources", .error⟩]
  else []

/-- The pooled findings of `validate` (step 2 onward), given the findings of
the name check. -/
def validateResult (t : TableDefinition) (nameErrs : List ValidationError) : ValidationResult :=
  let all := zodFindings t ++ nameErrs ++ validateFields t
    ++ validateOwner t ++ validateDescription t ++ validateDataSources t
  { valid := (all.filter fun e => e.severity = .error).length = 0
    errors := all.filter fun e => e.severity = .error
    warnings := all.filter fun e => e.severity = .warning }

/-- `TableValidator.validate` (lines 24–52): pool all findings, then
partition by severity; `valid` iff no error-severity finding. -/
def validate (t : TableDefinition) : Except String ValidationResult :=
  match validateTableNameE t with
  | .error e => .error e
  | .ok nameErrs => .ok (validateResult t nameErrs)

end TableValidator

/-- The error-severity findings of a result that carry a given `type`. -/
def errorsOfType (r : ValidationResult) (ty : String) : List ValidationError :=
  r.errors.filter fun e => e.type = ty

/-- Whether a (possibly thrown) validation outcome carries an error finding
of the given `type`. -/
def hasErrType (res : Except String ValidationResult) (ty : String) : Bool :=
  match res with
  | .ok r => r.errors.any fun e => e.type == ty
  | .error _ => false

instance {ε α : Type} [DecidableEq ε] [DecidableEq α] : DecidableEq (Except ε α) := fun a b =>
  match a, b with
  | .error e₁, .error e₂ =>
    if h : e₁ = e₂ then isTrue (by rw [h]) else isFalse (by intro hc; cases hc; exact h rfl)
  | .ok a₁, .ok a₂ =>
    if h : a₁ = a₂ then isTrue (by rw [h]) else isFalse (by intro hc; cases hc; exact h rfl)
  | .error _, .ok _ => isFalse (by intro hc; cases hc)
  | .ok _, .error _ => isFalse (by intro hc; cases hc)

/-! ## `SQLGenerator` (`table-validator.ts`, lines 173–748)

`SQLDialect` is a TypeScript union type that is erased at runtime, so the
dialect is modelled as a `String` (callers can, and per the spec do, pass
values such as `'oracle'`).  The generator instance's configured default
dialect is passed as the explicit `selfDialect` argument, and
`new Date().toISOString().split('T')[0]` as the explicit `currentDate`
argument. -/

namespace SQLGenerator

/-- `GenerateOptions` of the source. -/
structure GenerateOptions where
  dialect : Option String := none
  includeComments : Option Bool := none
  deriving DecidableEq, Repr

/-- `options.dialect || this.dialect` (an empty string is falsy in JS). -/
def effectiveDialect (selfDialect : String) (o : GenerateOptions) : String :=
  match o.dialect with
  | some d => if d = "" then selfDialect else d
  | none => selfDialect

/-- `options.includeComments !== false`. -/
def commentsOn (o : GenerateOptions) : Bool := o.includeComments ≠ some false

def supportedDialects : List String := ["hive", "mysql", "clickhouse", "maxcompute"]

/-- A `forEach` loop that appends `',\n'` after every element but the last
and `'\n'` after the last (and nothing for an empty list). -/
def joinCommaNl (items : List String) : String :=
  match items with
  | [] => ""
  | _ => String.intercalate ",\n" items ++ "\n"

/-- `mapTypeToHive` (lines 692–706). -/
def mapTypeToHive (ty : String) : String :=
  match toUpperJS ty with
  | "STRING" => "STRING"
  | "INT" => "INT"
  | "BIGINT" => "BIGINT"
  | "DECIMAL" => "DECIMAL(18,2)"
  | "DATE" => "STRING"
  | "TIMESTAMP" => "TIMESTAMP"
  | "BOOLEAN" => "BOOLEAN"
  | "DOUBLE" => "DOUBLE"
  | "FLOAT" => "FLOAT"
  | _ => "STRING"

/-- `mapTypeToMySQL` (lines 711–725). -/
def mapTypeToMySQL (ty : String) : String :=
  match toUpperJS ty with
  | "STRING" => "VARCHAR(255)"
  | "INT" => "INT"
  | "BIGINT" => "BIGINT"
  | "DECIMAL" => "DECIMAL(18,2)"
  | "DATE" => "DATE"
  | "TIMESTAMP" => "DATETIME"
  | "BOOLEAN" => "TINYINT(1)"
  | "DOUBLE" => "DOUBLE"
  | "FLOAT" => "FLOAT"
  | _ => "VARCHAR(255)"

/-- `mapTypeToMaxCompute` (lines 730–747). -/
def mapTypeToMaxCompute (ty : String) : String :=
  match toUpperJS ty with
  | "STRING" => "STRING"
  | "INT" => "BIGINT"
  | "BIGINT" => "BIGINT"
  | "DECIMAL" => "DECIMAL(18,2)"
  | "DATE" => "STRING"
  | "TIMESTAMP" => "DATETIME"
  | "BOOLEAN" => "BOOLEAN"
  | "DOUBLE" => "DOUBLE"
  | "FLOAT" => "DOUBLE"
  | "ARRAY" => "ARRAY<STRING>"
  | "MAP" => "MAP<STRING, STRING>"
  | "STRUCT" => "STRUCT<field1:STRING>"
  | _ => "STRING"

/-- `table.partitionKeys && table.partitionKeys.includes('dt')`. -/
def hasDtPartition (t : TableDefinition) : Bool :=
  match t.partitionKeys with
  | some pks => pks.contains "dt"
  | none => false

/-- `table.fields.filter(f => !partitionKeys.includes(f.name))` with
`partitionKeys = table.partitionKeys || []`. -/
def regularFields (t : TableDefinition) : List FieldDefinition :=
  let partitionKeys := t.partitionKeys.getD []
  t.fields.filter fun f => !partitionKeys.contains f.name

/-- `table.dataSources[0] || 'source_table'`. -/
def firstDataSource (t : TableDefinition) : String :=
  match t.dataSources.head? with
  | some s => if s = "" then "source_table" else s
  | none => "source_table"

/-- The literal of the `updateFrequency` union member. -/
def updateFrequencyStr : UpdateFrequency → String
  | .realtime => "realtime"
  | .hourly => "hourly"
  | .daily => "daily"
  | .weekly => "weekly"

/-- `table.name.replace('.', '_')` — a string-pattern `replace` in JS
substitutes only the first occurrence. -/
def replaceFirstDot : List Char → List Char
  | [] => []
  | c :: rest => if c = '.' then '_' :: rest else c :: replaceFirstDot rest

def mysqlTableName (name : String) : String := ⟨replaceFirstDot name.data⟩

/-- One rendered line per partition key in `generateHiveDDL`
(lines 360–369). -/
def hivePartitionLines (t : TableDefinition) : List String :=
  (t.partitionKeys.getD []).map fun k =>
    "    " ++ k ++ " "
    ++ (match t.fields.find? (fun f => f.name == k) with
        | some f => mapTypeToHive f.type
        | none => "STRING")

/-- The `PARTITIONED BY` block of `generateHiveDDL` (lines 358–371). -/
def hivePartitionClause (t : TableDefinition) : String :=
  if t.partitionKeys.getD [] ≠ [] then
    "PARTITIONED BY (\n" ++ joinCommaNl (hivePartitionLines t) ++ ")\n"
  else ""

/-- `generateHiveDDL` up to (excluding) the partition clause
(lines 319–355). -/
def hiveDDLPrefix (t : TableDefinition) (o : GenerateOptions) (currentDate : String) : String :=
  let ic := commentsOn o
  (if ic then
    "-- Hive DDL\n" ++ "-- 表名：" ++ t.name ++ "\n" ++ "-- 中文名：" ++ t.displayName ++ "\n"
    ++ "-- 负责人：" ++ t.owner ++ "\n" ++ "-- 生成时间：" ++ currentDate ++ "\n\n"
  else "")
  ++ "CREATE TABLE IF NOT EXISTS " ++ t.name ++ " (\n"
  ++ joinCommaNl ((regularFields t).map fun f =>
      "    " ++ f.name ++ " " ++ mapTypeToHive f.type
      ++ (if ic ∧ f.description ≠ "" then " COMMENT '" ++ f.description ++ "'" else ""))
  ++ ")\n"
  ++ (if ic ∧ t.displayName ≠ "" then "COMMENT '" ++ t.displayName ++ "'\n" else "")

/-- `generateHiveDDL` after the partition clause (lines 373–377). -/
def hiveDDLSuffix (t : TableDefinition) (currentDate : String) : String :=
  "STORED AS PARQUET\n"
  ++ "TBLPROPERTIES (\n"
  ++ "    'owner' = '" ++ t.owner ++ "',\n"
  ++ "    'created_date' = '" ++ currentDate ++ "'\n"
  ++ ");\n"

/-- `generateHiveDDL` (lines 319–380). -/
def generateHiveDDL (t : TableDefinition) (o : GenerateOptions) (currentDate : String) : String :=
  hiveDDLPrefix t o currentDate ++ hivePartitionClause t ++ hiveDDLSuffix t currentDate

/-- `generateHiveETL` (lines 385–446). -/
def generateHiveETL (t : TableDefinition) (o : GenerateOptions) (currentDate : String) : String :=
  let ic := commentsOn o
  (if ic then
    "-- Hive ETL 模板\n" ++ "-- 表名：" ++ t.name ++ "\n" ++ "-- 中文名：" ++ t.displayName ++ "\n"
    ++ "-- 负责人：" ++ t.owner ++ "\n" ++ "-- 生成时间：" ++ currentDate ++ "\n\n"
  else "")
  ++ "INSERT OVERWRITE TABLE " ++ t.name ++ "\n"
  ++ (if hasDtPartition t then "PARTITION (dt = '${bizdate}')\n" else "")
  ++ "SELECT\n"
  ++ joinCommaNl ((regularFields t).map fun f =>
      if ic ∧ f.description ≠ "" then "    " ++ f.name ++ "  -- " ++ f.description
      else "    " ++ f.name)
  ++ "FROM (\n"
  ++ "    SELECT\n"
  ++ joinCommaNl ((regularFields t).map fun f =>
      "        NULL AS " ++ f.name ++ "  -- TODO: 填写字段逻辑")
  ++ "    FROM " ++ firstDataSource t ++ "\n"
  ++ (if hasDtPartition t then "    WHERE dt = '${bizdate}'\n" else "")
  ++ ") t;\n"

/-- `generateMySQLDDL` (lines 451–491): all fields are rendered in the one
column list (no partition handling), the qualified name is flattened. -/
def generateMySQLDDL (t : TableDefinition) (o : GenerateOptions) (currentDate : String) : String :=
  let ic := commentsOn o
  let tableName := mysqlTableName t.name
  (if ic then
    "-- MySQL DDL\n" ++ "-- 表名：" ++ t.name ++ "\n"
    ++ "-- 负责人：" ++ t.owner ++ "\n" ++ "-- 生成时间：" ++ currentDate ++ "\n\n"
  else "")
  ++ "CREATE TABLE IF NOT EXISTS `" ++ tableName ++ "` (\n"
  ++ joinCommaNl (t.fields.map fun f =>
      "    `" ++ f.name ++ "` " ++ mapTypeToMySQL f.type
      ++ (if !f.nullable then " NOT NULL" else "")
      ++ (if ic ∧ f.description ≠ "" then " COMMENT '" ++ f.description ++ "'" else ""))
  ++ ") ENGINE=InnoDB DEFAULT CHARSET=utf8mb4"
  ++ (if ic ∧ t.displayName ≠ "" then " COMMENT='" ++ t.displayName ++ "'" else "")
  ++ ";\n"

/-- `generateMySQLETL` (lines 496–504). -/
def generateMySQLETL (t : TableDefinition) : String :=
  "-- MySQL ETL 模板\n" ++ "-- TODO: 实现 MySQL ETL 逻辑\n\n"
  ++ "INSERT INTO `" ++ mysqlTableName t.name ++ "` VALUES (...);\n"

/-- `generateClickHouseDDL` (lines 509–517). -/
def generateClickHouseDDL (t : TableDefinition) : String :=
  "-- ClickHouse DDL\n" ++ "-- TODO: 实现 ClickHouse DDL\n\n"
  ++ "CREATE TABLE IF NOT EXISTS " ++ mysqlTableName t.name ++ " (...) ENGINE = MergeTree();\n"

/-- `generateClickHouseETL` (lines 522–530). -/
def generateClickHouseETL (t : TableDefinition) : String :=
  "-- ClickHouse ETL 模板\n" ++ "-- TODO: 实现 ClickHouse ETL 逻辑\n\n"
  ++ "INSERT INTO " ++ mysqlTableName t.name ++ " VALUES (...);\n"

/-- One rendered line per partition key in `generateMaxComputeDDL`
(lines 578–590). -/
def maxcomputePartitionLines (t : TableDefinition) (ic : Bool) : List String :=
  (t.partitionKeys.getD []).map fun k =>
    "    " ++ k ++ " "
    ++ (match t.fields.find? (fun f => f.name == k) with
        | some f => mapTypeToMaxCompute f.type
        | none => "STRING")
    ++ (match t.fields.find? (fun f => f.name == k) with
        | some f =>
          if ic ∧ f.description ≠ "" then " COMMENT '" ++ f.description ++ "'" else ""
        | none => "")

/-- The `PARTITIONED BY` block of `generateMaxComputeDDL` (lines 576–592). -/
def maxcomputePartitionClause (t : TableDefinition) (ic : Bool) : String :=
  if t.partitionKeys.getD [] ≠ [] then
    "PARTITIONED BY (\n" ++ joinCommaNl (maxcomputePartitionLines t ic) ++ ")\n"
  else ""

/-- `generateMaxComputeDDL` up to (excluding) the partition clause
(lines 535–573). -/
def maxcomputeDDLPrefix (t : TableDefinition) (o : GenerateOptions) (currentDate : String) : String :=
  let ic := commentsOn o
  (if ic then
    "-- MaxCompute DDL\n" ++ "-- 表名：" ++ t.name ++ "\n" ++ "-- 中文名：" ++ t.displayName ++ "\n"
    ++ "-- 负责人：" ++ t.owner ++ "\n" ++ "-- 生成时间：" ++ currentDate ++ "\n\n"
  else "")
  ++ "CREATE TABLE IF NOT EXISTS " ++ t.name ++ " (\n"
  ++ joinCommaNl ((regularFields t).map fun f =>
      "    " ++ f.name ++ " " ++ mapTypeToMaxCompute f.type
      ++ (if ic ∧ f.description ≠ "" then " COMMENT '" ++ f.description ++ "'" else ""))
  ++ ")\n"
  ++ (if ic ∧ t.displayName ≠ "" then "COMMENT '" ++ t.displayName ++ "'\n" else "")

/-- `generateMaxComputeDDL` after the partition clause (lines 594–603). -/
def maxcomputeDDLSuffix (t : TableDefinition) (currentDate : String) : String :=
  "LIFECYCLE 365\n"
  ++ "TBLPROPERTIES (\n"
  ++ "    'owner' = '" ++ t.owner ++ "',\n"
  ++ "    'created_date' = '" ++ currentDate ++ "',\n"
  ++ "    'update_frequency' = '" ++ updateFrequencyStr t.updateFrequency ++ "',\n"
  ++ "    'data_source' = '" ++ String.intercalate "," t.dataSources ++ "'\n"
  ++ ");\n"

/-- `generateMaxComputeDDL` (lines 535–606). -/
def generateMaxComputeDDL (t : TableDefinition) (o : GenerateOptions) (currentDate : String) : String :=
  maxcomputeDDLPrefix t o currentDate ++ maxcomputePartitionClause t (commentsOn o)
    ++ maxcomputeDDLSuffix t currentDate

/-- `generateMaxComputeETL` (lines 611–687). -/
def generateMaxComputeETL (t : TableDefinition) (o : GenerateOptions) (currentDate : String) : String :=
  let ic := commentsOn o
  (if ic then
    "-- MaxCompute ETL 模板\n" ++ "-- 表名：" ++ t.name ++ "\n" ++ "-- 中文名：" ++ t.displayName ++ "\n"
    ++ "-- 负责人：" ++ t.owner ++ "\n" ++ "-- 生成时间：" ++ currentDate ++ "\n\n"
  else "")
  ++ "INSERT OVERWRITE TABLE " ++ t.name ++ "\n"
  ++ (if hasDtPartition t then "PARTITION (dt = '${bizdate}')\n" else "")
  ++ "SELECT\n"
  ++ joinCommaNl ((regularFields t).map fun f =>
      if ic ∧ f.description ≠ "" then "    " ++ f.name ++ "  -- " ++ f.description
      else "    " ++ f.name)
  ++ "FROM (\n"
  ++ "    SELECT\n"
  ++ joinCommaNl ((regularFields t).map fun f =>
      "        NULL AS " ++ f.name ++ "  -- TODO: 填写字段转换逻辑")
  ++ (if hasDtPartition t then "        ,'${bizdate}' AS dt\n" else "")
  ++ "    FROM " ++ firstDataSource t ++ "\n"
  ++ (if hasDtPartition t then "    WHERE dt = '${bizdate}'\n" else "")
  ++ ") t;\n"
  ++ (if ic then
      "\n-- MaxCompute 最佳实践：\n"
      ++ "-- 1. 使用分区表减少数据扫描量\n"
      ++ "-- 2. 合理设置生命周期管理成本\n"
      ++ "-- 3. 使用 INSERT OVERWRITE 而非 INSERT INTO\n"
      ++ "-- 4. 大表操作时使用动态分区\n"
    else "")

/-- `generateDDL` (lines 190–205): dispatch on the effective dialect，
throwing `不支持的 SQL 方言` on the default branch. -/
def generateDDL (selfDialect : String) (t : TableDefinition) (o : GenerateOptions)
    (currentDate : String) : Except String String :=
  match effectiveDialect selfDialect o with
  | "hive" => .ok (generateHiveDDL t o currentDate)
  | "mysql" => .ok (generateMySQLDDL t o currentDate)
  | "clickhouse" => .ok (generateClickHouseDDL t)
  | "maxcompute" => .ok (generateMaxComputeDDL t o currentDate)
  | d => .error ("不支持的 SQL 方言: " ++ d)

/-- `generateETL` (lines 210–225). -/
def generateETL (selfDialect : String) (t : TableDefinition) (o : GenerateOptions)
    (currentDate : String) : Except String String :=
  match effectiveDialect selfDialect o with
  | "hive" => .ok (generateHiveETL t o currentDate)
  | "mysql" => .ok (generateMySQLETL t)
  | "clickhouse" => .ok (generateClickHouseETL t)
  | "maxcompute" => .ok (generateMaxComputeETL t o currentDate)
  | d => .error ("不支持的 SQL 方言: " ++ d)

/-- `generateCheckSQL` (lines 230–314). -/
def generateCheckSQL (t : TableDefinition) (currentDate : String) : String :=
  let requiredFields := t.fields.filter fun f => !f.nullable
  "-- 数据稽核 SQL\n"
  ++ "-- 表名：" ++ t.name ++ "\n"
  ++ "-- 负责人：" ++ t.owner ++ "\n"
  ++ "-- 生成时间：" ++ currentDate ++ "\n\n"
  ++ "-- 1. 数据量检查\n"
  ++ "SELECT\n"
  ++ "    '" ++ t.name ++ "' AS table_name,\n"
  ++ "    '${bizdate}' AS dt,\n"
  ++ "    COUNT(*) AS row_count,\n"
  ++ "    CASE\n"
  ++ "        WHEN COUNT(*) = 0 THEN 'CRITICAL'\n"
  ++ "        WHEN COUNT(*) < 100 THEN 'WARNING'\n"
  ++ "        ELSE 'OK'\n"
  ++ "    END AS status\n"
  ++ "FROM " ++ t.name ++ "\n"
  ++ (if hasDtPartition t then "WHERE dt = '${bizdate}';\n\n" else ";\n\n")
  ++ (if requiredFields ≠ [] then
      "-- 2. 关键字段非空检查\n"
      ++ "SELECT\n"
      ++ "    '" ++ t.name ++ "' AS table_name,\n"
      ++ "    '${bizdate}' AS dt,\n"
      ++ joinCommaNl (requiredFields.map fun f =>
          "    SUM(CASE WHEN " ++ f.name ++ " IS NULL THEN 1 ELSE 0 END) AS "
          ++ f.name ++ "_null_count")
      ++ "FROM " ++ t.name ++ "\n"
      ++ (if hasDtPartition t then "WHERE dt = '${bizdate}';\n\n" else ";\n\n")
    else "")
  ++ "-- 3. 数据重复检查\n"
  ++ "-- TODO: 根据业务主键检查重复数据\n\n"
  ++ (if hasDtPartition t then
      "-- 4. 数据量日环比波动检查\n"
      ++ "WITH today_count AS (\n"
      ++ "    SELECT COUNT(*) AS cnt\n"
      ++ "    FROM " ++ t.name ++ "\n"
      ++ "    WHERE dt = '${bizdate}'\n"
      ++ "),\n"
      ++ "yesterday_count AS (\n"
      ++ "    SELECT COUNT(*) AS cnt\n"
      ++ "    FROM " ++ t.name ++ "\n"
      ++ "    WHERE dt = DATE_SUB('${bizdate}', 1)\n"
      ++ ")\n"
      ++ "SELECT\n"
      ++ "    '" ++ t.name ++ "' AS table_name,\n"
      ++ "    '${bizdate}' AS dt,\n"
      ++ "    t.cnt AS today_count,\n"
      ++ "    y.cnt AS yesterday_count,\n"
      ++ "    ROUND((t.cnt - y.cnt) * 100.0 / y.cnt, 2) AS change_percent,\n"
      ++ "    CASE\n"
      ++ "        WHEN ABS((t.cnt - y.cnt) * 100.0 / y.cnt) > 50 THEN 'CRITICAL'\n"
      ++ "        WHEN ABS((t.cnt - y.cnt) * 100.0 / y.cnt) > 20 THEN 'WARNING'\n"
      ++ "        ELSE 'OK'\n"
      ++ "    END AS status\n"
      ++ "FROM today_count t, yesterday_count y;\n"
    else "")

end SQLGenerator

/-! ## `TableParser` (`table-parser.ts`)

Each extraction regex of the source is compiled into a deterministic scanner
over `List Char`.  Quantifier behaviour is reproduced exactly: the patterns
are of the "maximal-munch" kind (a greedy class run followed by a literal
outside the class), except for `\s*(.+)` at end of input, where the engine
backtracks into the whitespace run to find the last non-newline character —
`captureDotPlus` implements that case explicitly. -/

namespace TableParser

/-- Tail of `\s*(.+)`: skip maximal whitespace; if a character remains the
capture is the rest of that line, otherwise backtrack to the last
non-newline whitespace character (the capture then trims to empty). -/
def captureDotPlus (l : List Char) : Option (List Char) :=
  let ws := l.takeWhile jsWS
  let r := l.dropWhile jsWS
  match r with
  | _ :: _ => some (r.takeWhile (· != '\n'))
  | [] =>
    match ws.reverse.find? (fun c => c != '\n') with
    | some c => some [c]
    | none => none

/-- Matcher for `^#\s+表定义[：:]\s*([a-z_]+\.[a-z_]+)` at one candidate
position (the argument is the suffix starting there). -/
def tryTitleAt (l : List Char) : Option (List Char) :=
  match l with
  | '#' :: rest =>
    let ws := rest.takeWhile jsWS
    let r1 := rest.dropWhile jsWS
    if ws.isEmpty then none
    else
      match r1 with
      | '表' :: '定' :: '义' :: c :: r3 =>
        if c = '：' ∨ c = ':' then
          let r4 := r3.dropWhile jsWS
          let p1 := r4.takeWhile isNameChar
          let r5 := r4.dropWhile isNameChar
          if p1.isEmpty then none
          else
            match r5 with
            | '.' :: r6 =>
              let p2 := r6.takeWhile isNameChar
              if p2.isEmpty then none else some (p1 ++ '.' :: p2)
            | _ => none
        else none
      | _ => none
  | _ => none

/-- Leftmost match of the title regex: candidate positions are the start of
the string and every position directly after a `'\n'` (the `m` flag). -/
def findTitle : List Char → Bool → Option (List Char)
  | [], atStart => if atStart then tryTitleAt [] else none
  | c :: rest, atStart =>
    (if atStart then tryTitleAt (c :: rest) else none).orElse
      (fun _ => findTitle rest (c == '\n'))

/-- Whether the title regex matches with capture `target` at ANY candidate
position (used to express "the document contains a title line with this
identifier"). -/
def anyTitleCapture (l : List Char) (atStart : Bool) (target : List Char) : Bool :=
  decide ((if atStart then tryTitleAt l else none) = some target)
  || (match l with
      | [] => false
      | c :: rest => anyTitleCapture rest (c == '\n') target)

/-- `extractTableName` (lines 42–49); `none` models the thrown
`未找到表名` error. -/
def extractTableName (content : String) : Option String :=
  (findTitle content.data true).map fun cap => ⟨trimJS cap⟩

/-- Matcher for `-\s*\*\*KEY[：:]\*\*\s*(.+)` given the suffix directly
after the `'-'`. -/
def kvTailAfterDash (key : List Char) (rest : List Char) : Option (List Char) :=
  let r1 := rest.dropWhile jsWS
  if ('*' :: '*' :: key).isPrefixOf r1 then
    match r1.drop (2 + key.length) with
    | c :: r3 =>
      if c = '：' ∨ c = ':' then
        if ['*', '*'].isPrefixOf r3 then
          captureDotPlus (r3.drop 2)
        else none
      else none
    | [] => none
  else none

/-- Leftmost match of the labeled key-value pattern (scans every position;
the pattern is unanchored). -/
def findKV (key : List Char) : List Char → Option (List Char)
  | [] => none
  | c :: rest =>
    match (if c = '-' then kvTailAfterDash key rest else none) with
    | some cap => some cap
    | none => findKV key rest

/-- `extractValue` (lines 73–85): locate the labeled line, trim, strip all
`[请填写]` placeholders, trim again; absence yields `''`. -/
def extractValue (content : String) (key : String) : String :=
  match findKV key.data content.data with
  | none => ""
  | some cap => ⟨trimJS (removeAllSub placeholder.data (trimJS cap))⟩

/-- Matcher for `##\s*NAME` at one position; returns the suffix after the
literal. -/
def headerAt (name : List Char) (l : List Char) : Option (List Char) :=
  match l with
  | '#' :: '#' :: rest =>
    let r1 := rest.dropWhile jsWS
    if name.isPrefixOf r1 then some (r1.drop name.length) else none
  | _ => none

/-- Leftmost section-header match, returning the suffix after it. -/
def findHeaderAfter (name : List Char) : List Char → Option (List Char)
  | [] => none
  | c :: rest =>
    match headerAt name (c :: rest) with
    | some after => some after
    | none => findHeaderAfter name rest

/-- Leftmost section-header match, returning both the suffix starting at the
header and the suffix after it (needed where the source uses `match[0]`). -/
def findHeaderIncl (name : List Char) : List Char → Option (List Char × List Char)
  | [] => none
  | c :: rest =>
    match headerAt name (c :: rest) with
    | some after => some (c :: rest, after)
    | none => findHeaderIncl name rest

/-- The lookahead `(?=\n##|\n---|\n```|$)` of the description pattern. -/
def isDescStop (l : List Char) : Bool :=
  match l with
  | '\n' :: rest =>
    ['#', '#'].isPrefixOf rest || ['-', '-', '-'].isPrefixOf rest
    || [Char.ofNat 96, Char.ofNat 96, Char.ofNat 96].isPrefixOf rest
  | _ => false

/-- Lazy capture `([\s\S]*?)` up to the first stop marker (or end of
input — `$` is one of the lookahead's alternatives). -/
def descCapture : List Char → List Char
  | [] => []
  | c :: rest => if isDescStop (c :: rest) then [] else c :: descCapture rest

/-- Lazy `[\s\S]*?\n\n`: the suffix after the first `"\n\n"`. -/
def findBlank : List Char → Option (List Char)
  | '\n' :: '\n' :: rest => some rest
  | _ :: rest => findBlank rest
  | [] => none

/-- First description pattern
`##\s*表描述[\s\S]*?\n\n([\s\S]*?)(?=\n##|\n---|\n```|$)`. -/
def descPrimary (content : List Char) : Option (List Char) :=
  match findHeaderAfter "表描述".data content with
  | none => none
  | some after => (findBlank after).map descCapture

/-- Fallback description pattern
`##\s*基本信息[\s\S]*?-\s*\*\*描述[：:]\*\*\s*(.+)`. -/
def descFallback (content : List Char) : Option (List Char) :=
  match findHeaderAfter "基本信息".data content with
  | none => none
  | some after => findKV "描述".data after

/-- `extractDescription` (lines 54–68). -/
def extractDescription (content : String) : String :=
  match descPrimary content.data with
  | some cap => ⟨trimJS cap⟩
  | none =>
    match descFallback content.data with
    | some cap => ⟨trimJS cap⟩
    | none => ""

/-- `extractUpdateFrequency` (lines 90–98). -/
def extractUpdateFrequency (content : String) : UpdateFrequency :=
  let value := toLowerJS (extractValue content "更新频率")
  if strContains value "realtime" || strContains value "实时" then .realtime
  else if strContains value "hourly" || strContains value "小时" then .hourly
  else if strContains value "weekly" || strContains value "周" then .weekly
  else .daily

/-- The lookahead `(?=\n##|\n---|\n>|\n\n[^|])` of the field-table
pattern (note: end of input is NOT an alternative here). -/
def isFieldsStop (l : List Char) : Bool :=
  match l with
  | '\n' :: '#' :: '#' :: _ => true
  | '\n' :: '-' :: '-' :: '-' :: _ => true
  | '\n' :: '>' :: _ => true
  | '\n' :: '\n' :: c :: _ => c != '|'
  | _ => false

/-- Lazy capture up to the first field-table stop marker; fails when no
marker follows (then the whole regex fails). -/
def fieldsCapture : List Char → Option (List Char)
  | [] => none
  | c :: rest =>
    if isFieldsStop (c :: rest) then some []
    else (fieldsCapture rest).map (c :: ·)

/-- `[\s\S]*?\n(\|[\s\S]*?)(?=...)`: earliest `"\n|"`, then the lazy
capture; on failure the gap extends to the next `"\n|"`. -/
def findTableBlock : List Char → Option (List Char)
  | [] => none
  | c :: rest =>
    match (if c = '\n' then
            match rest with
            | '|' :: r2 => (fieldsCapture r2).map (fun cap => '|' :: cap)
            | _ => none
          else none) with
    | some cap => some cap
    | none => findTableBlock rest

/-- One data row of the field table (lines 118–132 of the source). -/
def parseFieldRow (line : List Char) : Option FieldDefinition :=
  let cols := ((splitOnChar '|' line).map trimJS).filter (fun cl => !cl.isEmpty)
  if cols.length < 3 then none
  else
    some { name := ⟨cols.getD 0 []⟩
           type := ⟨cols.getD 1 []⟩
           description := ⟨cols.getD 2 []⟩
           nullable := cols.get? 3 != some ['是']
           exampleValue := (cols.get? 4).map (fun cl => (⟨cl⟩ : String)) }

/-- `extractFields` (lines 103–135). -/
def extractFields (content : String) : List FieldDefinition :=
  match findHeaderAfter "字段定义".data content.data with
  | none => []
  | some after =>
    match findTableBlock after with
    | none => []
    | some tableContent =>
      let lines := (splitOnChar '\n' tableContent).filter (fun l => !(trimJS l).isEmpty)
      let dataLines := (lines.drop 2).filter (fun l => !containsSub l "---".data)
      dataLines.filterMap parseFieldRow

/-- `extractPartitionKeys` (lines 140–148). -/
def extractPartitionKeys (content : String) : Option (List String) :=
  match findHeaderAfter "分区字段".data content.data with
  | none => none
  | some after =>
    match findKV "分区键".data after with
    | none => none
    | some cap =>
      let keys := (((splitOnAny [',', '，', '、'] (trimJS cap)).map trimJS).filter
        (fun k => !k.isEmpty)).map (fun k => (⟨k⟩ : String))
      if keys.length > 0 then some keys else none

/-- Leftmost match of the bare `-\s*(.+)` tail used by `extractIndexes`. -/
def findDashCapture : List Char → Option (List Char)
  | [] => none
  | c :: rest =>
    match (if c = '-' then captureDotPlus rest else none) with
    | some cap => some cap
    | none => findDashCapture rest

/-- `extractIndexes` (lines 153–161). -/
def extractIndexes (content : String) : Option (List String) :=
  match findHeaderAfter "索引".data content.data with
  | none => none
  | some after =>
    match findDashCapture after with
    | none => none
    | some cap =>
      let indexes := (((splitOnAny [',', '，', '、'] (trimJS cap)).map trimJS).filter
        (fun k => !k.isEmpty)).map (fun k => (⟨k⟩ : String))
      if indexes.length > 0 then some indexes else none

/-- The split/trim/filter pipeline of `extractDataSources` (lines 173–175):
candidates are the entries that survive
`.filter(s => s && !s.includes('[请填写]'))`. -/
def dataSourceCandidates (content : String) : List (List Char) :=
  let value := extractValue content "数据来源"
  ((splitOnAny [',', '，', '、', '\n'] value.data).map trimJS).filter
    (fun s => !s.isEmpty && !containsSub s placeholder.data)

/-- `extractDataSources` (lines 166–178). -/
def extractDataSources (content : String) : List String :=
  let value := extractValue content "数据来源"
  if value = "" then []
  else
    let sources := (dataSourceCandidates content).map (fun s => (⟨s⟩ : String))
    if sources.length > 0 then sources else ["未指定"]

/-- One repetition of `(?:\n-\s*(.+))+`: returns the suffix after the
repetition when it matches. -/
def repMatch (l : List Char) : Option (List Char) :=
  match l with
  | '\n' :: '-' :: r =>
    let ws := r.takeWhile jsWS
    let r1 := r.dropWhile jsWS
    match r1 with
    | _ :: _ => some (r1.dropWhile (· != '\n'))
    | [] =>
      let trailing := (ws.reverse.takeWhile (· == '\n')).length
      if trailing < ws.length then some (List.replicate trailing '\n') else none
  | _ => none

/-- Earliest suffix at which a repetition matches (the lazy `[\s\S]*?`
gap before the `+` group). -/
def findRep : List Char → Option (List Char)
  | [] => none
  | c :: rest =>
    if (repMatch (c :: rest)).isSome then some (c :: rest)
    else findRep rest

/-- Greedy `+`: consume repetitions while they match. -/
def repsEnd : Nat → List Char → List Char
  | 0, l => l
  | fuel + 1, l =>
    match repMatch l with
    | some r => repsEnd fuel r
    | none => l

/-- `match[0]` of the list-section pattern `##\s*NAME[\s\S]*?(?:\n-\s*(.+))+`:
from the header start to the end of the last repetition. -/
def listSectionSpan (name : List Char) (content : List Char) : Option (List Char) :=
  match findHeaderIncl name content with
  | none => none
  | some (hstart, hafter) =>
    match findRep hafter with
    | none => none
    | some repStart =>
      let rem := repsEnd repStart.length repStart
      some (hstart.take (hstart.length - rem.length))

/-- `line.replace(/^-\s*/, '').trim()` — the `^` anchors at the start of the
raw line, so a leading bullet is only stripped when the line starts with
`'-'` directly. -/
def cleanBullet (l : List Char) : List Char :=
  trimJS (match l with
          | '-' :: r => r.dropWhile jsWS
          | _ => l)

/-- `extractConsumers` (lines 183–196). -/
def extractConsumers (content : String) : Option (List String) :=
  match listSectionSpan "下游消费".data content.data with
  | none => none
  | some span =>
    let consumers := (((splitOnChar '\n' span).filter
        (fun line => match trimJS line with | '-' :: _ => true | _ => false)).map
        cleanBullet).filter (fun line => !line.isEmpty)
    if consumers.length > 0 then some (consumers.map fun l => (⟨l⟩ : String)) else none

/-- `extractQualityRules` (lines 201–214). -/
def extractQualityRules (content : String) : Option (List String) :=
  match listSectionSpan "数据质量规则".data content.data with
  | none => none
  | some span =>
    let rules := (((splitOnChar '\n' span).filter
        (fun line => match trimJS line with | '-' :: _ => true | _ => false)).map
        cleanBullet).filter (fun line => !line.isEmpty && !containsSub line placeholder.data)
    if rules.length > 0 then some (rules.map fun l => (⟨l⟩ : String)) else none

/-- `extractMetadata` (lines 31–37). -/
def extractMetadata (_content : String) : TableMetadata :=
  { format := "dataspec-table", version := "1.0" }

/-- `TableParser.parse` (lines 11–26): the only failure is the missing
title anchor. -/
def parse (content : String) : Except String TableDefinition :=
  match extractTableName content with
  | none => .error "未找到表名"
  | some n =>
    .ok { metadata := extractMetadata content
          name := n
          displayName := extractValue content "中文名"
          description := extractDescription content
          owner := extractValue content "负责人"
          updateFrequency := extractUpdateFrequency content
          fields := extractFields content
          partitionKeys := extractPartitionKeys content
          indexes := extractIndexes content
          dataSources := extractDataSources content
          consumers := extractConsumers content
          qualityRules := extractQualityRules content }

end TableParser

/-! ## Fixtures

`mockTable` is the table of the repository's vitest fixture (the
`SQLGenerator` unit test). -/

def mkField (n ty ds : String) (nb : Bool) : FieldDefinition :=
  { name := n, type := ty, description := ds, nullable := nb }

def mockTable : TableDefinition :=
  { metadata := { format := "dataspec-table", version := "1.0" }
    name := "dw.sales_daily"
    displayName := "销售日表"
    description := "每日销售数据汇总表"
    owner := "张三"
    updateFrequency := .daily
    fields := [mkField "order_id" "STRING" "订单ID" false,
               mkField "amount" "DECIMAL" "金额" false,
               mkField "dt" "STRING" "日期分区" false]
    partitionKeys := some ["dt"]
    dataSources := ["ods.orders"] }

def c3MySQLDDLStr : String :=
  match SQLGenerator.generateDDL "hive" mockTable
      { dialect := some "mysql", includeComments := some false } "2025-01-01" with
  | .ok s => s
  | .error _ => ""

def c5Table : TableDefinition :=
  { metadata := { format := "dataspec-table", version := "1.0" }
    name := "dw.types"
    displayName := ""
    description := "类型映射测试表格说明"
    owner := "张三"
    updateFrequency := .daily
    fields := [mkField "int_col" "iNt" "" true, mkField "foo_col" "Foo" "" true]
    partitionKeys := none
    dataSources := ["ods.orders"] }

def c5HiveDDL : String :=
  SQLGenerator.generateHiveDDL c5Table { includeComments := some false } "2025-01-01"

def c5MySQLDDL : String :=
  SQLGenerator.generateMySQLDDL c5Table { includeComments := some false } "2025-01-01"

def c5MaxDDL : String :=
  SQLGenerator.generateMaxComputeDDL c5Table { includeComments := some false } "2025-01-01"

def c1DotlessTable : TableDefinition := { mockTable with name := "salesdaily" }

def c2Table : TableDefinition := { mockTable with dataSources := ["ods.orders", "未指定"] }

def c6DotlessTable : TableDefinition :=
  { mockTable with
    name := "nodot"
    fields := [mkField "a" "STRING" "说明文字" true,
               mkField "b" "STRING" "说明文字" true,
               mkField "a" "STRING" "说明文字" true] }

def c6Table : TableDefinition :=
  { mockTable with fields := [mkField "a" "STRING" "说明文字" true,
                              mkField "b" "STRING" "说明文字" true,
                              mkField "a" "STRING" "说明文字" true] }

def c10Doc : String := "- **数据来源：** [请填写]，[请填写]
"

def c9Doc : String := "# 表定义：dw.t
"

def c8Doc : String := "# 表定义：aa.bb\n# 表定义：cc.dd\n"

set_option maxRecDepth 4000

/-! ## C3 — partition exclusion -/

/-- C3 counterexample: for the fixture table with `partitionKeys = ['dt']`
and a declared `dt` field, the MySQL DDL declares `dt` inside its one column
list and contains no partition clause at all — so the claimed property fails
for the supported dialect `mysql`. -/
theorem C3_counterexample :
    SQLGenerator.generateDDL "hive" mockTable
        { dialect := some "mysql", includeComments := some false } "2025-01-01"
      = .ok c3MySQLDDLStr
    ∧ strContains c3MySQLDDLStr "`dt`" = true
    ∧ strContains c3MySQLDDLStr "PARTITION" = false :=
  ⟨rfl, by decide, by decide⟩

/-- C3 (amended): for the Hive and MaxCompute dialects the claim holds: the
main column list excludes the `dt` partition column, and the DDL contains a
separate `PARTITIONED BY` clause that declares `dt`.  (MySQL DDL instead
renders every field, `dt` included, in its single column list with no
partition clause, and ClickHouse DDL is a stub with neither.) -/
theorem C3_partition_exclusion_hive_maxcompute (t : TableDefinition)
    (o : SQLGenerator.GenerateOptions) (d : String)
    (hpk : t.partitionKeys = some ["dt"]) (_hfld : ∃ f ∈ t.fields, f.name = "dt") :
    "dt" ∉ (SQLGenerator.regularFields t).map (·.name)
    ∧ SQLGenerator.generateHiveDDL t o d
        = SQLGenerator.hiveDDLPrefix t o d ++ SQLGenerator.hivePartitionClause t
          ++ SQLGenerator.hiveDDLSuffix t d
    ∧ (∃ ty, SQLGenerator.hivePartitionClause t
        = "PARTITIONED BY (\n" ++ ("    dt " ++ ty ++ "\n") ++ ")\n")
    ∧ SQLGenerator.generateMaxComputeDDL t o d
        = SQLGenerator.maxcomputeDDLPrefix t o d
          ++ SQLGenerator.maxcomputePartitionClause t (SQLGenerator.commentsOn o)
          ++ SQLGenerator.maxcomputeDDLSuffix t d
    ∧ (∃ ty, SQLGenerator.maxcomputePartitionClause t (SQLGenerator.commentsOn o)
        = "PARTITIONED BY (\n" ++ ("    dt " ++ ty ++ "\n") ++ ")\n") := by
  refine ⟨?_, rfl, ?_, rfl, ?_⟩
  · intro hmem
    simp only [SQLGenerator.regularFields, hpk, Option.getD_some, List.mem_map,
      List.mem_filter] at hmem
    obtain ⟨f, ⟨_, hf⟩, hname⟩ := hmem
    rw [hname] at hf
    simp at hf
  · refine ⟨(match t.fields.find? (fun f => f.name == "dt") with
        | some f => SQLGenerator.mapTypeToHive f.type
        | none => "STRING"), ?_⟩
    unfold SQLGenerator.hivePartitionClause SQLGenerator.hivePartitionLines
    rw [hpk]
    simp only [Option.getD_some, ne_eq, List.cons_ne_nil, not_false_eq_true, if_pos,
      List.map_cons, List.map_nil]
    unfold SQLGenerator.joinCommaNl
    simp only [String.intercalate, String.intercalate.go]
    rfl
  · refine ⟨((match t.fields.find? (fun f => f.name == "dt") with
        | some f => SQLGenerator.mapTypeToMaxCompute f.type
        | none => "STRING")
      ++ (match t.fields.find? (fun f => f.name == "dt") with
          | some f =>
            if SQLGenerator.commentsOn o ∧ f.description ≠ "" then
              " COMMENT '" ++ f.description ++ "'"
            else ""
          | none => "")), ?_⟩
    unfold SQLGenerator.maxcomputePartitionClause SQLGenerator.maxcomputePartitionLines
    rw [hpk]
    simp only [Option.getD_some, ne_eq, List.cons_ne_nil, not_false_eq_true, if_pos,
      List.map_cons, List.map_nil]
    unfold SQLGenerator.joinCommaNl
    simp only [String.intercalate, String.intercalate.go]
    rw [String.append_assoc ("    " ++ "dt" ++ " ")]
    rfl

/-- Witness for the amended C3 at the fixture table. -/
theorem C3_witness :
    (mockTable.partitionKeys = some ["dt"] ∧ ∃ f ∈ mockTable.fields, f.name = "dt")
    ∧ ("dt" ∉ (SQLGenerator.regularFields mockTable).map (·.name)
    ∧ SQLGenerator.generateHiveDDL mockTable {} "2025-01-01"
        = SQLGenerator.hiveDDLPrefix mockTable {} "2025-01-01"
          ++ SQLGenerator.hivePartitionClause mockTable
          ++ SQLGenerator.hiveDDLSuffix mockTable "2025-01-01"
    ∧ (∃ ty, SQLGenerator.hivePartitionClause mockTable
        = "PARTITIONED BY (\n" ++ ("    dt " ++ ty ++ "\n") ++ ")\n")
    ∧ SQLGenerator.generateMaxComputeDDL mockTable {} "2025-01-01"
        = SQLGenerator.maxcomputeDDLPrefix mockTable {} "2025-01-01"
          ++ SQLGenerator.maxcomputePartitionClause mockTable (SQLGenerator.commentsOn {})
          ++ SQLGenerator.maxcomputeDDLSuffix mockTable "2025-01-01"
    ∧ (∃ ty, SQLGenerator.maxcomputePartitionClause mockTable (SQLGenerator.commentsOn {})
        = "PARTITIONED BY (\n" ++ ("    dt " ++ ty ++ "\n") ++ ")\n")) :=
  ⟨⟨rfl, by decide⟩,
   C3_partition_exclusion_hive_maxcompute mockTable {} "2025-01-01" rfl (by decide)⟩

/-! ## C4 — purity of the generators -/

/-- C4 counterexample: the claim says the generators have no dependence on
ambient state such as the current date, but `generateCheckSQL` embeds
`new Date()` in its header, so two calls with structurally equal inputs made
on different days return different strings. -/
theorem C4_counterexample :
    SQLGenerator.generateCheckSQL mockTable "2025-01-01"
      ≠ SQLGenerator.generateCheckSQL mockTable "2025-01-02" := by decide

/-- C4 (amended): each generator is a deterministic function of the table,
the options and the current date only; the ClickHouse DDL/ETL stubs and the
MySQL ETL stub do not mention the date, so on those paths structurally equal
inputs give identical output across dates. -/
theorem C4_stub_paths_date_independent (selfD : String) (t : TableDefinition)
    (ic : Option Bool) (d₁ d₂ : String) :
    SQLGenerator.generateDDL selfD t ⟨some "clickhouse", ic⟩ d₁
      = SQLGenerator.generateDDL selfD t ⟨some "clickhouse", ic⟩ d₂
    ∧ SQLGenerator.generateETL selfD t ⟨some "clickhouse", ic⟩ d₁
      = SQLGenerator.generateETL selfD t ⟨some "clickhouse", ic⟩ d₂
    ∧ SQLGenerator.generateETL selfD t ⟨some "mysql", ic⟩ d₁
      = SQLGenerator.generateETL selfD t ⟨some "mysql", ic⟩ d₂ :=
  ⟨rfl, rfl, rfl⟩

/-! ## C5 — dialect type mapping -/

/-- C5: the type mapping is a case-insensitive lookup with per-dialect
defaults: any token whose upper-casing is `INT` maps to `INT` in Hive and
MySQL and to `BIGINT` in MaxCompute; the unrecognised token `FOO` (any
casing) maps to the dialect default `STRING` / `VARCHAR(255)` / `STRING`;
and the generated DDL renders those mapped types for such fields. -/
theorem C5_type_mapping :
    (∀ s : String, toUpperJS s = "INT" →
      SQLGenerator.mapTypeToHive s = "INT" ∧ SQLGenerator.mapTypeToMySQL s = "INT"
        ∧ SQLGenerator.mapTypeToMaxCompute s = "BIGINT")
    ∧ (∀ s : String, toUpperJS s = "FOO" →
      SQLGenerator.mapTypeToHive s = "STRING" ∧ SQLGenerator.mapTypeToMySQL s = "VARCHAR(255)"
        ∧ SQLGenerator.mapTypeToMaxCompute s = "STRING")
    ∧ strContains c5HiveDDL "int_col INT" = true
    ∧ strContains c5HiveDDL "foo_col STRING" = true
    ∧ strContains c5MySQLDDL "`int_col` INT" = true
    ∧ strContains c5MySQLDDL "`foo_col` VARCHAR(255)" = true
    ∧ strContains c5MaxDDL "int_col BIGINT" = true
    ∧ strContains c5MaxDDL "foo_col STRING" = true := by
  refine ⟨?_, ?_, by decide, by decide, by decide, by decide, by decide, by decide⟩
  · intro s h
    unfold SQLGenerator.mapTypeToHive SQLGenerator.mapTypeToMySQL SQLGenerator.mapTypeToMaxCompute
    rw [h]
    exact ⟨rfl, rfl, rfl⟩
  · intro s h
    unfold SQLGenerator.mapTypeToHive SQLGenerator.mapTypeToMySQL SQLGenerator.mapTypeToMaxCompute
    rw [h]
    exact ⟨rfl, rfl, rfl⟩

/-- Witness for C5 at the concrete case-variant tokens `iNt` and `fOo`. -/
theorem C5_witness :
    (toUpperJS "iNt" = "INT" ∧ toUpperJS "fOo" = "FOO")
    ∧ (SQLGenerator.mapTypeToHive "iNt" = "INT" ∧ SQLGenerator.mapTypeToMySQL "iNt" = "INT"
        ∧ SQLGenerator.mapTypeToMaxCompute "iNt" = "BIGINT")
    ∧ (SQLGenerator.mapTypeToHive "fOo" = "STRING"
        ∧ SQLGenerator.mapTypeToMySQL "fOo" = "VARCHAR(255)"
        ∧ SQLGenerator.mapTypeToMaxCompute "fOo" = "STRING") :=
  ⟨⟨by decide, by decide⟩, C5_type_mapping.1 "iNt" (by decide),
   C5_type_mapping.2.1 "fOo" (by decide)⟩

/-! ## Validator lemmas shared by C1, C2 and C6 -/

theorem splitOnChar_ne_nil (sep : Char) (l : List Char) : splitOnChar sep l ≠ [] := by
  cases l with
  | nil => simp [splitOnChar]
  | cons c rest =>
    simp only [splitOnChar]
    split
    · simp
    · split <;> simp

theorem splitOnChar_length_ge_two {sep : Char} {l : List Char} (h : sep ∈ l) :
    2 ≤ (splitOnChar sep l).length := by
  induction l with
  | nil => simp at h
  | cons c rest ih =>
    simp only [splitOnChar]
    by_cases hc : c = sep
    · rw [if_pos hc]
      have hne : splitOnChar sep rest ≠ [] := splitOnChar_ne_nil sep rest
      cases hsp : splitOnChar sep rest with
      | nil => exact absurd hsp hne
      | cons a b => simp
    · rw [if_neg hc]
      have hm : sep ∈ rest := by
        rcases List.mem_cons.1 h with h1 | h1
        · exact absurd h1.symm hc
        · exact h1
      have h2 := ih hm
      cases hsp : splitOnChar sep rest with
      | nil => exact absurd hsp (splitOnChar_ne_nil sep rest)
      | cons a b =>
        rw [hsp] at h2
        simp only [List.length_cons] at h2 ⊢
        omega

theorem validateTableNameE_ok_of_dot {t : TableDefinition} (h : '.' ∈ t.name.data) :
    ∃ errs, TableValidator.validateTableNameE t = .ok errs
      ∧ ∀ e ∈ errs, e.type = "INVALID_TABLE_NAME" ∨ e.type = "TABLE_NAME_TOO_LONG" := by
  unfold TableValidator.validateTableNameE
  have h2 := splitOnChar_length_ge_two h
  have h1 : 1 < (splitOnChar '.' t.name.data).length := by omega
  rw [List.getElem?_eq_getElem h1]
  refine ⟨_, rfl, ?_⟩
  intro e he
  rw [List.mem_append] at he
  rcases he with he | he
  · revert he; split
    · intro he; simp only [List.mem_singleton] at he; subst he; exact Or.inl rfl
    · intro he; simp at he
  · revert he; split
    · intro he; simp only [List.mem_singleton] at he; subst he; exact Or.inr rfl
    · intro he; simp at he

theorem validate_eq_ok {t : TableDefinition} {errs : List ValidationError}
    (h : TableValidator.validateTableNameE t = .ok errs) :
    TableValidator.validate t = .ok (TableValidator.validateResult t errs) := by
  unfold TableValidator.validate
  rw [h]

theorem validateResult_errors (t : TableDefinition) (errs : List ValidationError) :
    (TableValidator.validateResult t errs).errors =
      (TableValidator.zodFindings t ++ errs ++ TableValidator.validateFields t
        ++ TableValidator.validateOwner t ++ TableValidator.validateDescription t
        ++ TableValidator.validateDataSources t).filter (fun e => e.severity = .error) := rfl

theorem filter_filter_type_nil (l : List ValidationError) (ty : String)
    (h : ∀ e ∈ l, e.type ≠ ty) (p : ValidationError → Bool) :
    (l.filter p).filter (fun e => e.type = ty) = [] := by
  apply List.filter_eq_nil_iff.2
  intro e he
  have := h e (List.mem_of_mem_filter he)
  simp [this]

theorem zodFindings_type {t : TableDefinition} {e : ValidationError}
    (he : e ∈ TableValidator.zodFindings t) : e.type = "SCHEMA_ERROR" := by
  simp only [TableValidator.zodFindings, List.mem_filterMap] at he
  obtain ⟨c, _, hc⟩ := he
  revert hc; split
  · intro hc; cases hc; rfl
  · intro hc; cases hc

theorem perFieldFindings_type {fs : List FieldDefinition} {e : ValidationError}
    (he : e ∈ TableValidator.perFieldFindings fs) :
    e.type = "INVALID_FIELD_NAME" ∨ e.type = "INSUFFICIENT_FIELD_DESCRIPTION" := by
  simp only [TableValidator.perFieldFindings, List.mem_flatMap] at he
  obtain ⟨p, _, hp⟩ := he
  rw [List.mem_append] at hp
  rcases hp with hp | hp
  · revert hp; split
    · intro hp; simp only [List.mem_singleton] at hp; subst hp; exact Or.inl rfl
    · intro hp; simp at hp
  · revert hp; split
    · intro hp; simp only [List.mem_singleton] at hp; subst hp; exact Or.inr rfl
    · intro hp; simp at hp

theorem validateFields_type {t : TableDefinition} {e : ValidationError}
    (he : e ∈ TableValidator.validateFields t) :
    e.type = "DUPLICATE_FIELD_NAMES" ∨ e.type = "INVALID_FIELD_NAME"
      ∨ e.type = "INSUFFICIENT_FIELD_DESCRIPTION" := by
  simp only [TableValidator.validateFields, List.mem_append] at he
  rcases he with he | he
  · revert he; split
    · intro he; simp only [List.mem_singleton] at he; subst he; exact Or.inl rfl
    · intro he; simp at he
  · exact Or.inr (perFieldFindings_type he)

theorem validateOwner_type {t : TableDefinition} {e : ValidationError}
    (he : e ∈ TableValidator.validateOwner t) : e.type = "NO_OWNER" := by
  unfold TableValidator.validateOwner at he
  revert he; split
  · intro he; simp only [List.mem_singleton] at he; subst he; rfl
  · intro he; simp at he

theorem validateDescription_type {t : TableDefinition} {e : ValidationError}
    (he : e ∈ TableValidator.validateDescription t) : e.type = "INSUFFICIENT_DESCRIPTION" := by
  unfold TableValidator.validateDescription at he
  revert he; split
  · intro he; simp only [List.mem_singleton] at he; subst he; rfl
  · intro he; simp at he

theorem validateDataSources_type {t : TableDefinition} {e : ValidationError}
    (he : e ∈ TableValidator.validateDataSources t) : e.type = "NO_DATA_SOURCES" := by
  unfold TableValidator.validateDataSources at he
  revert he; split
  · intro he; simp only [List.mem_singleton] at he; subst he; rfl
  · intro he; simp at he

/-- For a `ty` produced neither by the Zod pass nor by the name check, the
`ty`-typed error findings come from the four remaining rule checks. -/
theorem errorsOfType_eq {t : TableDefinition} {errs : List ValidationError} {ty : String}
    (hty : ∀ e ∈ errs, e.type = "INVALID_TABLE_NAME" ∨ e.type = "TABLE_NAME_TOO_LONG")
    (hz : ty ≠ "SCHEMA_ERROR") (h1 : ty ≠ "INVALID_TABLE_NAME") (h2 : ty ≠ "TABLE_NAME_TOO_LONG") :
    errorsOfType (TableValidator.validateResult t errs) ty
      = ((TableValidator.validateFields t ++ TableValidator.validateOwner t
          ++ TableValidator.validateDescription t ++ TableValidator.validateDataSources t).filter
        (fun e => e.severity = .error)).filter (fun e => e.type = ty) := by
  unfold errorsOfType
  rw [validateResult_errors]
  simp only [List.filter_append]
  rw [filter_filter_type_nil (TableValidator.zodFindings t) ty
    (fun e he => by rw [zodFindings_type he]; exact Ne.symm hz)]
  rw [filter_filter_type_nil errs ty (fun e he => by
    rcases hty e he with h | h
    · rw [h]; exact Ne.symm h1
    · rw [h]; exact Ne.symm h2)]
  simp

/-! ## C1 — the validator never throws (code bug) -/

/-- C1: the claim says `validate` never throws for a well-shaped input and
reports a non-matching name as an `INVALID_TABLE_NAME` finding.  The code
contradicts it: for any well-shaped table whose `name` contains no dot,
`table.name.split('.')[1]` is `undefined` and the `.length` access on line 70
throws a `TypeError` (evaluated here at the concrete input
`name = "salesdaily"`).  Whenever the name does contain a dot, `validate`
returns normally, and a name failing the regex yields the
`INVALID_TABLE_NAME` error finding as claimed. -/
theorem C1_validate_throws_on_dotless_name :
    TableValidator.validate c1DotlessTable
      = .error "TypeError: Cannot read properties of undefined (reading 'length')"
    ∧ (∀ t : TableDefinition, '.' ∈ t.name.data → ∃ r, TableValidator.validate t = .ok r)
    ∧ (∀ t : TableDefinition, '.' ∈ t.name.data → matchesTableName t.name = false →
        ∃ r, TableValidator.validate t = .ok r
          ∧ ∃ e ∈ r.errors, e.type = "INVALID_TABLE_NAME") := by
  refine ⟨by decide, ?_, ?_⟩
  · intro t h
    obtain ⟨errs, heq, _⟩ := validateTableNameE_ok_of_dot h
    exact ⟨_, validate_eq_ok heq⟩
  · intro t h hm
    have h2 := splitOnChar_length_ge_two h
    have h1 : 1 < (splitOnChar '.' t.name.data).length := by omega
    have heq : TableValidator.validateTableNameE t = .ok
        ([⟨"INVALID_TABLE_NAME", "表名必须符合 database.table_name 格式，只允许小写字母和下划线",
            some "name", .error⟩] ++
          (if ((splitOnChar '.' t.name.data)[1]).length > 50 then
            [⟨"TABLE_NAME_TOO_LONG", "表名长度不应超过 50 个字符", some "name", .warning⟩]
          else [])) := by
      unfold TableValidator.validateTableNameE
      rw [List.getElem?_eq_getElem h1, hm]
      rfl
    refine ⟨_, validate_eq_ok heq, ?_⟩
    refine ⟨⟨"INVALID_TABLE_NAME", "表名必须符合 database.table_name 格式，只允许小写字母和下划线",
      some "name", .error⟩, ?_, rfl⟩
    rw [validateResult_errors]
    apply List.mem_filter.2
    refine ⟨?_, by decide⟩
    simp [List.mem_append]

/-- Witness for C1's positive part at the dotted fixture name. -/
theorem C1_witness :
    ('.' ∈ mockTable.name.data) ∧ ∃ r, TableValidator.validate mockTable = .ok r :=
  ⟨by decide, C1_validate_throws_on_dotless_name.2.1 mockTable (by decide)⟩

/-! ## C2 — the data-source rule (`some`, not `every`) -/

/-- C2 counterexample: `c2Table.dataSources` contains the entry
`"ods.orders"`, which neither contains the placeholder nor equals `未指定`,
yet `validate` still produces the `NO_DATA_SOURCES` error finding — so the
claimed "no finding regardless of the other entries" is false. -/
theorem C2_counterexample :
    hasErrType (TableValidator.validate c2Table) "NO_DATA_SOURCES" = true
    ∧ c2Table.dataSources.any
        (fun s => !(strContains s placeholder) && !(s == "未指定")) = true :=
  ⟨by decide, by decide⟩

/-- C2 (amended): for every table whose name contains a dot (so that
`validate` returns, cf. C1), the `NO_DATA_SOURCES` error finding is produced
iff `dataSources` is empty or SOME entry contains the placeholder sentinel
or equals `未指定`. -/
theorem C2_no_data_sources_iff_some_bad (t : TableDefinition) (hdot : '.' ∈ t.name.data) :
    ∃ r, TableValidator.validate t = .ok r ∧
      ((errorsOfType r "NO_DATA_SOURCES" ≠ []) ↔
        (t.dataSources = [] ∨ ∃ s ∈ t.dataSources,
          strContains s placeholder = true ∨ s = "未指定")) := by
  obtain ⟨errs, heq, hty⟩ := validateTableNameE_ok_of_dot hdot
  refine ⟨_, validate_eq_ok heq, ?_⟩
  rw [errorsOfType_eq hty (by decide) (by decide) (by decide)]
  simp only [List.filter_append]
  rw [filter_filter_type_nil (TableValidator.validateFields t) _ (fun e he => by
    rcases validateFields_type he with h | h | h <;> rw [h] <;> decide)]
  rw [filter_filter_type_nil (TableValidator.validateOwner t) _
    (fun e he => by rw [validateOwner_type he]; decide)]
  rw [filter_filter_type_nil (TableValidator.validateDescription t) _
    (fun e he => by rw [validateDescription_type he]; decide)]
  simp only [List.nil_append]
  unfold TableValidator.validateDataSources
  split
  · rename_i hcond
    constructor
    · intro _
      simpa [List.isEmpty_iff, List.any_eq_true] using hcond
    · intro _
      decide
  · rename_i hcond
    constructor
    · intro hne
      exact absurd rfl hne
    · intro hrhs
      exfalso
      apply hcond
      simpa [List.isEmpty_iff, List.any_eq_true] using hrhs

/-- Witness for the amended C2 at the concrete mixed-list fixture. -/
theorem C2_witness :
    ('.' ∈ c2Table.name.data)
    ∧ ∃ r, TableValidator.validate c2Table = .ok r ∧
        ((errorsOfType r "NO_DATA_SOURCES" ≠ []) ↔
          (c2Table.dataSources = [] ∨ ∃ s ∈ c2Table.dataSources,
            strContains s placeholder = true ∨ s = "未指定")) :=
  ⟨by decide, C2_no_data_sources_iff_some_bad c2Table (by decide)⟩

/-! ## C6 — duplicate field names -/

/-- C6: for a table whose field names are `[x, y, x]` with `x ≠ y` (and a
dotted name, so that `validate` returns, cf. C1), `validate` yields exactly
one `DUPLICATE_FIELD_NAMES` error finding, whose message joins the
deduplicated duplicates — here just `x`, mentioned once. -/
theorem C6_duplicate_field_names (t : TableDefinition) (x y : String)
    (hf : t.fields.map (·.name) = [x, y, x]) (hxy : x ≠ y) (hdot : '.' ∈ t.name.data) :
    ∃ r, TableValidator.validate t = .ok r ∧
      errorsOfType r "DUPLICATE_FIELD_NAMES" =
        [⟨"DUPLICATE_FIELD_NAMES", "字段名重复: " ++ x, some "fields", .error⟩] := by
  obtain ⟨errs, heq, hty⟩ := validateTableNameE_ok_of_dot hdot
  refine ⟨_, validate_eq_ok heq, ?_⟩
  rw [errorsOfType_eq hty (by decide) (by decide) (by decide)]
  simp only [List.filter_append]
  rw [filter_filter_type_nil (TableValidator.validateOwner t) _
    (fun e he => by rw [validateOwner_type he]; decide)]
  rw [filter_filter_type_nil (TableValidator.validateDescription t) _
    (fun e he => by rw [validateDescription_type he]; decide)]
  rw [filter_filter_type_nil (TableValidator.validateDataSources t) _
    (fun e he => by rw [validateDataSources_type he]; decide)]
  simp only [List.append_nil, List.nil_append]
  unfold TableValidator.validateFields
  rw [hf]
  have hdup : TableValidator.duplicateNames [x, y, x] = [x] := by
    unfold TableValidator.duplicateNames
    simp only [List.enum, List.enumFrom]
    simp [List.indexOf_cons_self, List.indexOf_cons_ne _ hxy]
  rw [hdup]
  simp only [ne_eq, List.cons_ne_nil, not_false_eq_true, if_pos]
  have hjoin : String.intercalate ", " (dedupFirst [x]) = x := by
    simp [dedupFirst, dedupFirstFuel, String.intercalate, String.intercalate.go]
  rw [hjoin]
  simp only [List.filter_cons, List.filter_append]
  rw [filter_filter_type_nil (TableValidator.perFieldFindings t.fields) _ (fun e he => by
    rcases perFieldFindings_type he with h | h <;> rw [h] <;> decide)]
  simp

/-- C6 counterexample: a table with field names `[a, b, a]` (`a ≠ b`) whose
name lacks a dot makes `validate` throw (the C1 crash), so it yields no
`DUPLICATE_FIELD_NAMES` finding at all — the claim fails as universally
stated over every `TableDefinition`. -/
theorem C6_counterexample :
    c6DotlessTable.fields.map (·.name) = ["a", "b", "a"]
    ∧ ("a" : String) ≠ "b"
    ∧ TableValidator.validate c6DotlessTable
        = .error "TypeError: Cannot read properties of undefined (reading 'length')" :=
  ⟨by decide, by decide, by decide⟩

/-- Witness for C6 at the concrete `[a, b, a]` fixture. -/
theorem C6_witness :
    (c6Table.fields.map (·.name) = ["a", "b", "a"] ∧ ("a" : String) ≠ "b"
      ∧ '.' ∈ c6Table.name.data)
    ∧ ∃ r, TableValidator.validate c6Table = .ok r ∧
        errorsOfType r "DUPLICATE_FIELD_NAMES" =
          [⟨"DUPLICATE_FIELD_NAMES", "字段名重复: " ++ "a", some "fields", .error⟩] :=
  ⟨⟨by decide, by decide, by decide⟩,
   C6_duplicate_field_names c6Table "a" "b" (by decide) (by decide) (by decide)⟩

/-! ## C7 — unsupported dialect handling -/

/-- C7: `generateDDL` and `generateETL` raise an error naming the rejected
dialect whenever the effective dialect is not one of the four supported
values, and return a string without raising for each of the four. -/
theorem C7_unsupported_dialect (selfD : String) (t : TableDefinition)
    (o : SQLGenerator.GenerateOptions) (d : String) :
    (SQLGenerator.effectiveDialect selfD o ∉ SQLGenerator.supportedDialects →
      SQLGenerator.generateDDL selfD t o d
        = .error ("不支持的 SQL 方言: " ++ SQLGenerator.effectiveDialect selfD o)
      ∧ SQLGenerator.generateETL selfD t o d
        = .error ("不支持的 SQL 方言: " ++ SQLGenerator.effectiveDialect selfD o))
    ∧ (SQLGenerator.effectiveDialect selfD o ∈ SQLGenerator.supportedDialects →
      (∃ s, SQLGenerator.generateDDL selfD t o d = .ok s)
      ∧ (∃ s, SQLGenerator.generateETL selfD t o d = .ok s)) := by
  constructor
  · intro h
    constructor
    · unfold SQLGenerator.generateDDL
      split
      · rename_i heq; rw [heq] at h; simp [SQLGenerator.supportedDialects] at h
      · rename_i heq; rw [heq] at h; simp [SQLGenerator.supportedDialects] at h
      · rename_i heq; rw [heq] at h; simp [SQLGenerator.supportedDialects] at h
      · rename_i heq; rw [heq] at h; simp [SQLGenerator.supportedDialects] at h
      · rfl
    · unfold SQLGenerator.generateETL
      split
      · rename_i heq; rw [heq] at h; simp [SQLGenerator.supportedDialects] at h
      · rename_i heq; rw [heq] at h; simp [SQLGenerator.supportedDialects] at h
      · rename_i heq; rw [heq] at h; simp [SQLGenerator.supportedDialects] at h
      · rename_i heq; rw [heq] at h; simp [SQLGenerator.supportedDialects] at h
      · rfl
  · intro h
    simp only [SQLGenerator.supportedDialects, List.mem_cons, List.not_mem_nil, or_false] at h
    unfold SQLGenerator.generateDDL SQLGenerator.generateETL
    rcases h with h | h | h | h <;> rw [h] <;> exact ⟨⟨_, rfl⟩, ⟨_, rfl⟩⟩

/-- Witness for C7: the `oracle` dialect is rejected with the error naming
it, while the default `hive` path returns DDL and ETL text. -/
theorem C7_witness :
    (SQLGenerator.effectiveDialect "hive" { dialect := some "oracle" }
        ∉ SQLGenerator.supportedDialects
     ∧ SQLGenerator.generateDDL "hive" mockTable { dialect := some "oracle" } "2025-01-01"
         = .error ("不支持的 SQL 方言: "
             ++ SQLGenerator.effectiveDialect "hive" { dialect := some "oracle" })
     ∧ SQLGenerator.generateETL "hive" mockTable { dialect := some "oracle" } "2025-01-01"
         = .error ("不支持的 SQL 方言: "
             ++ SQLGenerator.effectiveDialect "hive" { dialect := some "oracle" }))
    ∧ (SQLGenerator.effectiveDialect "hive" {} ∈ SQLGenerator.supportedDialects
     ∧ (∃ s, SQLGenerator.generateDDL "hive" mockTable {} "2025-01-01" = .ok s)
     ∧ (∃ s, SQLGenerator.generateETL "hive" mockTable {} "2025-01-01" = .ok s)) :=
  ⟨⟨by decide, (C7_unsupported_dialect "hive" mockTable { dialect := some "oracle" } "2025-01-01").1
      (by decide)⟩,
   ⟨by decide, (C7_unsupported_dialect "hive" mockTable {} "2025-01-01").2 (by decide)⟩⟩

/-! ## C10 — data-source sentinel default -/

/-- C10: when the 数据来源 label is present with a nonempty (post-placeholder-
strip) value but every split candidate is filtered out (empty or containing
the placeholder), `extractDataSources` returns `['未指定']`; the empty list is
returned exactly when the label value is absent or empty; and surviving
candidates are returned as-is. -/
theorem C10_data_sources_sentinel_default (d : String) :
    (TableParser.extractDataSources d = [] ↔ TableParser.extractValue d "数据来源" = "")
    ∧ (TableParser.extractValue d "数据来源" ≠ "" → TableParser.dataSourceCandidates d = [] →
        TableParser.extractDataSources d = ["未指定"])
    ∧ (TableParser.extractValue d "数据来源" ≠ "" → TableParser.dataSourceCandidates d ≠ [] →
        TableParser.extractDataSources d
          = (TableParser.dataSourceCandidates d).map fun l => (⟨l⟩ : String)) := by
  refine ⟨⟨?_, ?_⟩, ?_, ?_⟩
  · intro h
    by_contra hv
    simp only [TableParser.extractDataSources, hv, if_false] at h
    revert h; split
    · intro h
      rename_i hlen
      rw [h] at hlen
      simp at hlen
    · intro h
      simp at h
  · intro hv
    simp [TableParser.extractDataSources, hv]
  · intro hv hc
    simp only [TableParser.extractDataSources, hv, if_false]
    rw [if_neg]
    simp [hc]
  · intro hv hc
    simp only [TableParser.extractDataSources, hv, if_false]
    rw [if_pos]
    simp only [List.length_map]
    exact List.length_pos.2 hc

/-- Witness for C10: a present label whose candidates all die in the filter
yields `['未指定']`. -/
theorem C10_witness :
    (TableParser.extractValue c10Doc "数据来源" ≠ ""
      ∧ TableParser.dataSourceCandidates c10Doc = [])
    ∧ TableParser.extractDataSources c10Doc = ["未指定"] :=
  ⟨⟨by decide, by decide⟩,
   (C10_data_sources_sentinel_default c10Doc).2.1 (by decide) (by decide)⟩

/-! ## C9 — parse fails only on the missing title -/

/-- C9: `parse` raises (with the `未找到表名` message) iff the document lacks
the title anchor; when the anchor is present it returns a record without
raising, and every section whose pattern is absent is populated with its
documented default (`''`, `[]`, `undefined`/`none`, or `daily` for the
update frequency). -/
theorem C9_parse_failure_and_defaults (d : String) :
    (TableParser.extractTableName d = none → TableParser.parse d = .error "未找到表名")
    ∧ (∀ s, TableParser.extractTableName d = some s →
        ∃ t, TableParser.parse d = .ok t ∧ t.name = s
          ∧ (TableParser.findKV "中文名".data d.data = none → t.displayName = "")
          ∧ (TableParser.descPrimary d.data = none → TableParser.descFallback d.data = none →
              t.description = "")
          ∧ (TableParser.findKV "负责人".data d.data = none → t.owner = "")
          ∧ (TableParser.findKV "更新频率".data d.data = none → t.updateFrequency = .daily)
          ∧ (TableParser.findHeaderAfter "字段定义".data d.data = none → t.fields = [])
          ∧ (TableParser.findHeaderAfter "分区字段".data d.data = none → t.partitionKeys = none)
          ∧ (TableParser.findHeaderAfter "索引".data d.data = none → t.indexes = none)
          ∧ (TableParser.findKV "数据来源".data d.data = none → t.dataSources = [])
          ∧ (TableParser.listSectionSpan "下游消费".data d.data = none → t.consumers = none)
          ∧ (TableParser.listSectionSpan "数据质量规则".data d.data = none →
              t.qualityRules = none)) := by
  constructor
  · intro h
    unfold TableParser.parse
    rw [h]
  · intro s h
    unfold TableParser.parse
    rw [h]
    refine ⟨_, rfl, rfl, ?_, ?_, ?_, ?_, ?_, ?_, ?_, ?_, ?_, ?_⟩
    · intro hk
      simp only [TableParser.extractValue, hk]
    · intro h1 h2
      simp only [TableParser.extractDescription, h1, h2]
    · intro hk
      simp only [TableParser.extractValue, hk]
    · intro hk
      simp only [TableParser.extractUpdateFrequency, TableParser.extractValue, hk]
      rfl
    · intro hh
      simp only [TableParser.extractFields, hh]
    · intro hh
      simp only [TableParser.extractPartitionKeys, hh]
    · intro hh
      simp only [TableParser.extractIndexes, hh]
    · intro hk
      simp only [TableParser.extractDataSources, TableParser.extractValue, hk]
      rfl
    · intro hs
      simp only [TableParser.extractConsumers, hs]
    · intro hs
      simp only [TableParser.extractQualityRules, hs]

/-- Witness for C9 at a document holding only the title anchor. -/
theorem C9_witness :
    (TableParser.extractTableName c9Doc = some "dw.t")
    ∧ ∃ t, TableParser.parse c9Doc = .ok t ∧ t.name = "dw.t"
        ∧ (TableParser.findKV "中文名".data c9Doc.data = none → t.displayName = "")
        ∧ (TableParser.descPrimary c9Doc.data = none → TableParser.descFallback c9Doc.data = none →
            t.description = "")
        ∧ (TableParser.findKV "负责人".data c9Doc.data = none → t.owner = "")
        ∧ (TableParser.findKV "更新频率".data c9Doc.data = none → t.updateFrequency = .daily)
        ∧ (TableParser.findHeaderAfter "字段定义".data c9Doc.data = none → t.fields = [])
        ∧ (TableParser.findHeaderAfter "分区字段".data c9Doc.data = none → t.partitionKeys = none)
        ∧ (TableParser.findHeaderAfter "索引".data c9Doc.data = none → t.indexes = none)
        ∧ (TableParser.findKV "数据来源".data c9Doc.data = none → t.dataSources = [])
        ∧ (TableParser.listSectionSpan "下游消费".data c9Doc.data = none → t.consumers = none)
        ∧ (TableParser.listSectionSpan "数据质量规则".data c9Doc.data = none →
            t.qualityRules = none) :=
  ⟨by decide, (C9_parse_failure_and_defaults c9Doc).2 "dw.t" (by decide)⟩

/-! ## C8 — round-trip of the title identifier -/

theorem mem_of_headOpt {α : Type} {l : List α} {c : α} (h : l.head? = some c) : c ∈ l := by
  cases l with
  | nil => cases h
  | cons a t =>
    simp only [List.head?_cons, Option.some.injEq] at h
    subst h
    exact List.mem_cons_self a t

theorem nameChar_not_ws {c : Char} (h : isNameChar c = true) : jsWS c = false := by
  simp only [isNameChar, Bool.or_eq_true, Bool.and_eq_true, decide_eq_true_eq] at h
  have hne : c ∉ wsChars := by
    intro hmem
    rcases h with ⟨h1, h2⟩ | h3
    · fin_cases hmem <;> revert h1 h2 <;> decide
    · subst h3; revert hmem; decide
  cases hc : wsChars.contains c with
  | false => simpa [jsWS] using hc
  | true =>
    exact absurd (List.mem_of_elem_eq_true (by simpa [List.contains] using hc)) hne

theorem dropWhile_eq_self_of {p : Char → Bool} {l : List Char}
    (h : ∀ c, l.head? = some c → p c = false) : l.dropWhile p = l := by
  cases l with
  | nil => rfl
  | cons c r => simp [List.dropWhile_cons, h c rfl]

theorem takeWhile_append_stop {p : Char → Bool} {l r : List Char}
    (hl : ∀ c ∈ l, p c = true) (hr : ∀ c, r.head? = some c → p c = false) :
    (l ++ r).takeWhile p = l ∧ (l ++ r).dropWhile p = r := by
  induction l with
  | nil =>
    simp only [List.nil_append]
    cases r with
    | nil => simp
    | cons c r' =>
      have := hr c rfl
      simp [List.takeWhile_cons, List.dropWhile_cons, this]
  | cons a l' ih =>
    have ha := hl a (List.mem_cons_self a l')
    have ih' := ih (fun c hc => hl c (List.mem_cons_of_mem a hc))
    simp [List.takeWhile_cons, List.dropWhile_cons, ha, ih'.1, ih'.2]

theorem trimJS_eq_self {l : List Char} (h : ∀ c ∈ l, jsWS c = false) : trimJS l = l := by
  unfold trimJS
  have h1 : l.dropWhile jsWS = l :=
    dropWhile_eq_self_of (fun c hc => h c (mem_of_headOpt hc))
  rw [h1]
  have h2 : l.reverse.dropWhile jsWS = l.reverse :=
    dropWhile_eq_self_of (fun c hc => h c (List.mem_reverse.1 (mem_of_headOpt hc)))
  rw [h2, List.reverse_reverse]

/-- The title regex matches at a position spelled
`# 表定义：<a>.<b><rest>` with identifier `a.b`. -/
theorem tryTitleAt_concat (a b rest : List Char)
    (ha : a ≠ []) (hA : ∀ c ∈ a, isNameChar c = true)
    (hb : b ≠ []) (hB : ∀ c ∈ b, isNameChar c = true)
    (hrest : ∀ c, rest.head? = some c → isNameChar c = false) :
    TableParser.tryTitleAt
        ('#' :: ' ' :: '表' :: '定' :: '义' :: '：' :: (a ++ '.' :: (b ++ rest)))
      = some (a ++ '.' :: b) := by
  obtain ⟨a0, a', rfl⟩ : ∃ a0 a', a = a0 :: a' := by
    cases a with
    | nil => exact absurd rfl ha
    | cons a0 a' => exact ⟨a0, a', rfl⟩
  have hwa0 : jsWS a0 = false :=
    nameChar_not_ws (hA a0 (List.mem_cons_self a0 a'))
  have htw := takeWhile_append_stop (p := isNameChar) (l := a0 :: a')
    (r := '.' :: (b ++ rest)) hA (fun c hc => by
      simp only [List.head?_cons, Option.some.injEq] at hc
      subst hc; decide)
  have htb := takeWhile_append_stop (p := isNameChar) (l := b) (r := rest) hB hrest
  unfold TableParser.tryTitleAt
  simp only [List.takeWhile_cons, List.dropWhile_cons]
  have w1 : jsWS ' ' = true := by decide
  have w2 : jsWS '表' = false := by decide
  have ht1 := htw.1
  have ht2 := htw.2
  simp only [List.cons_append] at ht1 ht2
  have hb1 := htb.1
  have hbe : b.isEmpty = false := by
    cases b with
    | nil => exact absurd rfl hb
    | cons x xs => rfl
  simp only [w1, w2, if_true, if_false, List.isEmpty_cons, Bool.false_eq_true, ite_false,
    List.dropWhile_cons, hwa0, List.cons_append, ht1, ht2, hb1, hbe]
  simp

theorem findTitle_start {l : List Char} {cap : List Char}
    (h : TableParser.tryTitleAt l = some cap) :
    TableParser.findTitle l true = some cap := by
  cases l with
  | nil =>
    have hnil : TableParser.tryTitleAt [] = none := rfl
    rw [hnil] at h
    cases h
  | cons c rest =>
    unfold TableParser.findTitle
    rw [if_pos rfl, h]
    rfl

/-- C8 (amended): the leftmost title-heading match determines the parsed
name; in particular, when the document begins with the title line
`# 表定义：a.b` (identifier characters `[a-z_]` on both sides of the dot,
and the following character, if any, not an identifier character),
`parse` returns a record whose `name` is exactly `a.b`, whatever follows. -/
theorem C8_first_title_wins (a b rest : String)
    (ha : a.data ≠ []) (hA : ∀ c ∈ a.data, isNameChar c = true)
    (hb : b.data ≠ []) (hB : ∀ c ∈ b.data, isNameChar c = true)
    (hrest : ∀ c, rest.data.head? = some c → isNameChar c = false) :
    (TableParser.parse ("# 表定义：" ++ a ++ "." ++ b ++ rest)).map (·.name)
      = .ok (a ++ "." ++ b) := by
  have hdata : ("# 表定义：" ++ a ++ "." ++ b ++ rest).data
      = '#' :: ' ' :: '表' :: '定' :: '义' :: '：' :: (a.data ++ '.' :: (b.data ++ rest.data)) := by
    rw [String.data_append, String.data_append, String.data_append, String.data_append]
    show ['#', ' ', '表', '定', '义', '：'] ++ a.data ++ ['.'] ++ b.data ++ rest.data = _
    simp
  have htry := tryTitleAt_concat a.data b.data rest.data ha hA hb hB hrest
  have hfind : TableParser.findTitle ("# 表定义：" ++ a ++ "." ++ b ++ rest).data true
      = some (a.data ++ '.' :: b.data) := by
    rw [hdata]; exact findTitle_start htry
  have hnows : ∀ c ∈ (a.data ++ '.' :: b.data), jsWS c = false := by
    intro c hc
    rw [List.mem_append] at hc
    rcases hc with hc | hc
    · exact nameChar_not_ws (hA c hc)
    · rcases List.mem_cons.1 hc with rfl | hc
      · decide
      · exact nameChar_not_ws (hB c hc)
  have hname : TableParser.extractTableName ("# 表定义：" ++ a ++ "." ++ b ++ rest)
      = some (a ++ "." ++ b) := by
    unfold TableParser.extractTableName
    rw [hfind]
    simp only [Option.map_some']
    congr 1
    rw [trimJS_eq_self hnows]
    have hd : (a ++ "." ++ b).data = a.data ++ '.' :: b.data := by
      rw [String.data_append, String.data_append]
      show a.data ++ ['.'] ++ b.data = _
      simp
    calc String.mk (a.data ++ '.' :: b.data) = String.mk ((a ++ "." ++ b).data) := by rw [hd]
      _ = a ++ "." ++ b := rfl
  unfold TableParser.parse
  rw [hname]
  rfl

/-- C8 counterexample: `c8Doc` contains a title line with identifier
`cc.dd` (witnessed by `anyTitleCapture`), yet `parse` returns the
identifier of the FIRST title line, `aa.bb` — so the claim, universally
quantified over every contained title line, is false. -/
theorem C8_counterexample :
    TableParser.anyTitleCapture c8Doc.data true "cc.dd".data = true
    ∧ (TableParser.parse c8Doc).map (·.name) = .ok "aa.bb"
    ∧ ("aa.bb" : String) ≠ "cc.dd" :=
  ⟨by decide, by decide, by decide⟩

/-- Witness for the amended C8 at a concrete document. -/
theorem C8_witness :
    (("dw" : String).data ≠ [] ∧ (∀ c ∈ ("dw" : String).data, isNameChar c = true)
      ∧ ("sales" : String).data ≠ [] ∧ (∀ c ∈ ("sales" : String).data, isNameChar c = true)
      ∧ (∀ c, ("\n- x\n" : String).data.head? = some c → isNameChar c = false))
    ∧ (TableParser.parse ("# 表定义：" ++ "dw" ++ "." ++ "sales" ++ "\n- x\n")).map (·.name)
        = .ok ("dw" ++ "." ++ "sales") :=
  ⟨⟨by decide, by decide, by decide, by decide, by decide⟩,
   C8_first_title_wins "dw" "sales" "\n- x\n" (by decide) (by decide) (by decide) (by decide)
     (by decide)⟩

end Dataspec

